import Mathlib

/-!
# Verification of the LiveTL stream aggregation and classification pipeline

Shallow embedding of `src/js/mchad.js` and `src/js/sources.js`.
Pure functions are translated directly; stateful code (the process-wide
message-id counter, the svelte store subscriptions, the YTC registration
handshake) is translated into explicit state passing.  JavaScript numbers
appearing in time arithmetic are modelled by `Int`/`ℚ` (exact for every value
these code paths produce), JS `undefined`/`null` by `Option`, and JS string
operations by executable functions over `List Char`.

Helpers whose source lives outside the two provided files (`utils.js`,
`filter.js`, `api.js`, the svelte store primitive) are modelled from the
spec; each such definition carries a doc comment starting with
`Modelled from the spec:`.
-/

/-! ## JavaScript primitives modelled over `List Char` -/

/-- ASCII lowercasing of one character, modelling the `i` flag of the
stream-start marker regex (the texts involved are ASCII). -/
def lowerChar (c : Char) : Char :=
  if 'A' ≤ c ∧ c ≤ 'Z' then Char.ofNat (c.toNat + 32) else c

/-- JS whitespace test for `\s`, `String.prototype.trim` and friends
(ASCII whitespace suffices for the strings this program manipulates). -/
def jsWhitespace (c : Char) : Bool :=
  c = ' ' ∨ c = '\t' ∨ c = '\n' ∨ c = '\r'

/-- JS `String.prototype.trim`: drop whitespace from both ends. -/
def jsTrim (s : String) : String :=
  String.mk (((s.toList.dropWhile jsWhitespace).reverse.dropWhile jsWhitespace).reverse)

/-- JS `parseInt` on a digit run: value of leading decimal digits. -/
def digitsVal (l : List Char) : Nat :=
  l.foldl (fun acc c => acc * 10 + (c.toNat - 48)) 0

/-- JS `parseInt(t)` (radix 10): skip leading whitespace, optional sign,
then a run of decimal digits; `none` models `NaN` (no digits found). -/
def jsParseInt (s : String) : Option Int :=
  let l := s.toList.dropWhile jsWhitespace
  let (neg, l) := match l with
    | '-' :: rest => (true, rest)
    | '+' :: rest => (false, rest)
    | _ => (false, l)
  let digits := l.takeWhile (fun c => '0' ≤ c ∧ c ≤ '9')
  if digits = [] then none
  else some (if neg then -(digitsVal digits : Int) else (digitsVal digits : Int))

/-- JS `String.prototype.split(sep)` for a one-character separator: the pieces
between separator occurrences (empty pieces kept, as in JS). -/
def splitOnChar (sep : Char) : List Char → List (List Char)
  | [] => [[]]
  | c :: cs =>
    let r := splitOnChar sep cs
    if c = sep then [] :: r
    else
      match r with
      | [] => [[c]]
      | l :: ls => (c :: l) :: ls

/-- Split a character list at line terminators, for the fact that `.` in a
JS regex does not match a newline. -/
def splitLines : List Char → List (List Char)
  | [] => [[]]
  | c :: cs =>
    let r := splitLines cs
    if c = '\n' ∨ c = '\r' then [] :: r
    else
      match r with
      | [] => [[c]]
      | l :: ls => (c :: l) :: ls

/-- First occurrence of `needle` in `hay`; returns the remaining suffix
after the match, `none` when there is no occurrence. -/
def searchAfter (needle : List Char) : List Char → Option (List Char)
  | [] => if needle = [] then some [] else none
  | h :: t =>
    if needle.isPrefixOf (h :: t) then some (List.drop needle.length (h :: t))
    else searchAfter needle t

/-- Predicate `containsInOrder hay needles`: holds when the needles occur in `hay` in
order, pairwise non-overlapping — the substring test performed by a regex of
shape `n₀.*n₁.*…` on a single line. -/
def containsInOrder (hay : List Char) : List (List Char) → Bool
  | [] => true
  | n :: ns =>
    match searchAfter n hay with
    | some rest => containsInOrder rest ns
    | none => false

/-- Test of the stream-start marker regex (`--.*Stream.*Start.*--`, flag `i`)
from `mchad.js` line 57: some line of `s` contains `--`, `stream`, `start`,
`--` in order (case-insensitively); `.` does not cross line terminators. -/
def isStreamStartMarker (s : String) : Bool :=
  (splitLines (s.toList.map lowerChar)).any
    (fun line => containsInOrder line
      [['-', '-'], ['s', 't', 'r', 'e', 'a', 'm'], ['s', 't', 'a', 'r', 't'], ['-', '-']])

/-- JS `tag.split(/\s+/g)` from `mchad.js` line 49: pieces between maximal
whitespace runs; a leading (resp. trailing) whitespace run contributes a
leading (resp. trailing) empty piece, exactly as in JS. -/
def jsSplitWs (s : String) : List String :=
  let runs := s.toList.splitBy (fun a b => jsWhitespace a == jsWhitespace b)
  match runs with
  | [] => [""]
  | r0 :: _ =>
    let startsWs := match r0.head? with
      | some c => jsWhitespace c
      | none => false
    let endsWs := match (runs.getLast?.bind List.head?) with
      | some c => jsWhitespace c
      | none => false
    let toks := (runs.filter (fun r => !(match r.head? with
      | some c => jsWhitespace c
      | none => false))).map String.mk
    (if startsWs then [""] else []) ++ toks ++ (if endsWs then [""] else [])

/-! ## Data model (`Message` of `types.js`, MCHAD payloads) -/

/-- One inline span of `messageArray` (`{ type: 'text', text }`). -/
structure MessageRun where
  type : String
  text : String
deriving DecidableEq, Repr

/-- Bit flags of `AuthorType` from `constants.js` (file not provided).
Modelled from the spec: `roleFlags: bitset{moderator, owner, verified, ...}`;
the concrete numeric values are never observable through the claims, only
bit-distinctness is. -/
def AuthorType.moderator : Nat := 1

/-- Owner bit of `AuthorType` (see `AuthorType.moderator`). -/
def AuthorType.owner : Nat := 2

/-- Verified bit of `AuthorType` (see `AuthorType.moderator`). -/
def AuthorType.verified : Nat := 4

/-- MCHAD bit of `AuthorType` (see `AuthorType.moderator`). -/
def AuthorType.mchad : Nat := 8

/-- The canonical message record built by `mchadToMessage` and `ytcToMsg`. -/
structure Message where
  text : String
  messageArray : List MessageRun
  author : String
  authorId : String
  langCode : Option String
  messageId : Nat
  timestamp : String
  types : Nat
  timestampMs : Int
deriving DecidableEq, Repr

/-- One MCHAD script line / live payload: `{ Stext, Stime }`. -/
structure MCHADTL where
  Stext : String
  Stime : Int
deriving DecidableEq, Repr

/-- An MCHAD archive room record (`Room`, `Link`, `Tags` are the fields the
code reads). -/
structure MCHADArchiveRoom where
  Room : String
  Link : String
  Tags : String
deriving DecidableEq, Repr

/-- An MCHAD live room record (`Nick`, `Tags` are the fields the code
reads). -/
structure MCHADLiveRoom where
  Nick : String
  Tags : String
deriving DecidableEq, Repr

/-- An entry of `languagesInfo` from `constants.js` (only the `code` field is
read by `getRoomTagLanguageCode`; `name` stands for the remaining fields the
black-box matcher may inspect). -/
structure LangInfo where
  code : String
  name : String
deriving DecidableEq, Repr

/-! ## `mchad.js`: language-tag resolution (claim C4) -/

/-- Embeds `possibleLanguages` (`mchad.js` line 44):
`languagesInfo.filter(lang => isLangMatch(tag, lang))`.  `isLangMatch` is the
external black-box matcher from `filter.js`, passed as a parameter. -/
def possibleLanguages (isLangMatch : String → LangInfo → Bool)
    (languagesInfo : List LangInfo) (tag : String) : List LangInfo :=
  languagesInfo.filter (isLangMatch tag)

/-- Embeds `getRoomTagLanguageCode` (`mchad.js` lines 47-53): split the tag on
whitespace, collect all matches of every token, take
`possible[possible.length - 1]?.code ?? null`. -/
def getRoomTagLanguageCode (isLangMatch : String → LangInfo → Bool)
    (languagesInfo : List LangInfo) (tag : String) : Option String :=
  let possible := ((jsSplitWs tag).map (possibleLanguages isLangMatch languagesInfo)).flatten
  possible.getLast?.map (fun l => l.code)

/-- The spec's wording for the resolver result: the list of all matches, in
token order. -/
def allTagMatches (isLangMatch : String → LangInfo → Bool)
    (languagesInfo : List LangInfo) (tag : String) : List LangInfo :=
  ((jsSplitWs tag).map (fun tok => languagesInfo.filter (isLangMatch tok))).flatten

/-- The spec's wording of the resolver: the code of the last match found
across all tokens, `null` when none. -/
def lastMatchCodeSpec (isLangMatch : String → LangInfo → Bool)
    (languagesInfo : List LangInfo) (tag : String) : Option String :=
  ((allTagMatches isLangMatch languagesInfo tag).reverse.head?).map (fun l => l.code)

/-! ## `mchad.js`: archive timeline (claims C3, C5, C8) -/

/-- Embeds `getFirstTime` (`mchad.js` lines 56-59):
`script.find(marker)?.Stime ?? script[0]?.Stime ?? 0`, where `marker` tests
the stream-start regex on `s.Stext`. -/
def getFirstTime (script : List MCHADTL) : Int :=
  (((script.find? (fun s => isStreamStartMarker s.Stext)).map (fun s => s.Stime)).orElse
    (fun _ => (script.head?).map (fun s => s.Stime))).getD 0

/-- Modelled from the spec: `formatTimestampMillis` from `utils.js` (file not
provided) — renders a millisecond offset as the human-readable elapsed-time
string `HH:MM:SS` (milliseconds below one second are truncated). -/
def formatTimestampMillis (millis : Int) : String :=
  let digit := fun (n : Nat) => Char.ofNat (48 + n % 10)
  let pad2 := fun (n : Nat) => String.mk [digit (n / 10), digit n]
  let totalSec := millis.toNat / 1000
  pad2 (totalSec / 3600) ++ ":" ++ pad2 (totalSec / 60 % 60) ++ ":" ++ pad2 (totalSec % 60)

/-- Embeds `archiveUnixToTimestamp` (`mchad.js` line 127):
`startUnix => unix => formatTimestampMillis(unix - startUnix)`. -/
def archiveUnixToTimestamp (startUnix : Int) : Int → String :=
  fun unix => formatTimestampMillis (unix - startUnix)

/-- Embeds `archiveUnixToNumber` (`mchad.js` line 130):
`startUnix => unix => unix - startUnix`. -/
def archiveUnixToNumber (startUnix : Int) : Int → Int :=
  fun unix => unix - startUnix

/-- An exact JS number of the shape produced by `archiveTimeToInt`: the
rational `num / 60 ^ den`.  (Kept away from `ℚ`'s sealed arithmetic so that
every operation evaluates by `decide`; `Q60.val` gives the rational value.) -/
structure Q60 where
  num : Int
  den : Nat
deriving DecidableEq, Repr

/-- The rational value of a `Q60`. -/
def Q60.val (x : Q60) : ℚ :=
  (x.num : ℚ) / ((60 ^ x.den : Nat) : ℚ)

/-- Exact addition: bring both to the common denominator `60 ^ max`. -/
def Q60.add (x y : Q60) : Q60 :=
  let d := max x.den y.den
  ⟨x.num * (60 : Int) ^ (d - x.den) + y.num * (60 : Int) ^ (d - y.den), d⟩

/-- Computes `v * Math.pow(60, e)` for an exact integer `v` and integer exponent. -/
def Q60.scale (v : Int) (e : Int) : Q60 :=
  match e with
  | .ofNat n => ⟨v * (60 : Int) ^ n, 0⟩
  | .negSucc n => ⟨v, n + 1⟩

/-- The JS `<=` on these numbers: cross-multiplied integer comparison. -/
def Q60.le (x y : Q60) : Prop :=
  x.num * (60 : Int) ^ y.den ≤ y.num * (60 : Int) ^ x.den

instance : DecidableRel Q60.le := fun _x _y =>
  inferInstanceAs (Decidable (_ ≤ _))

/-- NaN-propagating addition of JS numbers (`none` is `NaN`), the `+` of the
`reduce` in `archiveTimeToInt`. -/
def jsAdd (a b : Option Q60) : Option Q60 :=
  a.bind (fun x => b.map (fun y => x.add y))

/-- Embeds `archiveTimeToInt` (`mchad.js` lines 133-137): split the elapsed-time
string on `:`, `parseInt` each component, multiply by `Math.pow(60, 2 - i)`
and sum with `reduce`.  JS numbers are modelled by `Option Q60` (`none` =
NaN; every value these code paths produce is an exact rational).
`splitOnChar` never returns `[]`, matching `reduce` never seeing an empty
array. -/
def archiveTimeToInt (archiveTime : String) : Option Q60 :=
  let parts := ((splitOnChar ':' archiveTime.toList).map String.mk).map jsParseInt
  let scaled := parts.mapIdx
    (fun i t => t.map (fun v => Q60.scale v ((2 : ℤ) - (i : ℤ))))
  match scaled with
  | [] => none
  | h :: t => t.foldl jsAdd h

/-- JS `e.unix >= 0` where `unix : Option Q60` (`NaN >= 0` is false);
`0 ≤ num / 60 ^ den` iff `0 ≤ num`. -/
def jsGe0 : Option Q60 → Bool
  | none => false
  | some q => 0 ≤ q.num

/-- A script entry of `getArchive` after `addUnix`: the original message with
the recomputed `unix` sort key attached (`mchad.js` line 94). -/
structure ArchiveTL where
  msg : Message
  unix : Option Q60
deriving DecidableEq

/-- Embeds `addUnix` (`mchad.js` line 94):
`tl => ({ ...tl, unix: archiveTimeToInt(tl.timestamp) })`. -/
def addUnix (m : Message) : ArchiveTL :=
  ⟨m, archiveTimeToInt m.timestamp⟩

/-- The ascending-by-`unix` comparison used to order a prepared script. -/
def unixLe (a b : ArchiveTL) : Prop :=
  (a.unix.getD ⟨0, 0⟩).le (b.unix.getD ⟨0, 0⟩)

instance : DecidableRel unixLe := fun _a _b =>
  inferInstanceAs (Decidable (Q60.le _ _))

/-- Modelled from the spec: `sortBy('unix')` from `utils.js` (file not
provided) — a stable ascending sort by the `unix` key. -/
def sortByUnix (l : List ArchiveTL) : List ArchiveTL :=
  List.insertionSort unixLe l

/-- The script preparation of `getArchive` (`mchad.js` lines 96-99): attach
the recomputed key, keep the non-negative entries, sort ascending by the
key. -/
def getScript (script : List Message) : List ArchiveTL :=
  sortByUnix ((script.map addUnix).filter (fun e => jsGe0 e.unix))

/-- Embeds `mchadToMessage` (`mchad.js` lines 142-152) with the process-wide
`mchadTLCounter` passed and returned explicitly: `messageId: ++mchadTLCounter`
becomes `counter + 1`. -/
def mchadToMessage (author : String) (unixToTimestamp : Int → String)
    (unixToNumber : Int → Int) (langCode : Option String)
    (counter : Nat) (data : MCHADTL) : Message × Nat :=
  (⟨data.Stext, [⟨"text", data.Stext⟩], author, author, langCode,
    counter + 1, unixToTimestamp data.Stime, AuthorType.mchad,
    unixToNumber data.Stime⟩, counter + 1)

/-- One call of the `mchadToMessage`-produced converter, with its
construction-time arguments: the shape of every relay message construction,
archive (`mchad.js` line 79) and live (`mchad.js` line 159) alike. -/
structure BuildReq where
  author : String
  unixToTimestamp : Int → String
  unixToNumber : Int → Int
  langCode : Option String
  data : MCHADTL

/-- A sequence of relay message constructions threaded through the single
process-wide `mchadTLCounter`. -/
def buildAll : List BuildReq → Nat → List Message × Nat
  | [], c => ([], c)
  | r :: rs, c =>
    let (m, c') := mchadToMessage r.author r.unixToTimestamp r.unixToNumber r.langCode c r.data
    let (ms, c'') := buildAll rs c'
    (m :: ms, c'')

/-- Embeds `getArchiveFromRoom` (`mchad.js` lines 65-81) after the fetch has
produced `script`: compute `firstTime` and map `mchadToMessage` over the
script (counter threaded explicitly). -/
def getArchiveFromRoom (isLangMatch : String → LangInfo → Bool)
    (languagesInfo : List LangInfo) (room : MCHADArchiveRoom)
    (script : List MCHADTL) (counter : Nat) : List Message × Nat :=
  let firstTime := getFirstTime script
  buildAll
    (script.map (fun d =>
      ⟨room.Room, archiveUnixToTimestamp firstTime, archiveUnixToNumber firstTime,
        getRoomTagLanguageCode isLangMatch languagesInfo room.Tags, d⟩))
    counter

/-! ## `mchad.js`: relay forwarding and retry loop (claims C2, C6) -/

/-- The subscribe callback of `getArchive` (`mchad.js` lines 109-111):
`tl => { if (tl && enableMchadTLs.get() && !mchadUsers.get(tl.author)) set(tl) }`.
`store` is the current value of the relay-combined store; `set` is modelled
as replacing it.  `mchadUsers.get` is modelled as `String → Option Bool`
(`none` = author absent), with JS truthiness via `getD false`. -/
def getArchiveSubscribeCb (enableMchadTLs : Bool) (mchadUsers : String → Option Bool)
    (store : Option Message) (tl : Option Message) : Option Message :=
  match tl with
  | none => store
  | some m =>
    if enableMchadTLs && !((mchadUsers m.author).getD false) then some m else store

/-- The subscribe callback of `getLiveTranslations` (`mchad.js` lines
177-181), textually the same test as in `getArchive`:
`msg => { if (msg && enableMchadTLs.get() && !mchadUsers.get(msg.author)) set(msg) }`. -/
def getLiveSubscribeCb (enableMchadTLs : Bool) (mchadUsers : String → Option Bool)
    (store : Option Message) (msg : Option Message) : Option Message :=
  match msg with
  | none => store
  | some m =>
    if enableMchadTLs && !((mchadUsers m.author).getD false) then some m else store

/-- Embeds `getLiveRoomsWithRetry` (`mchad.js` lines 166-172) over the sequence of
results the successive `getRooms` calls produce: return the first non-empty
live-room list together with the durations (`retryInterval * 1000` ms) of the
sleeps performed before it; `none` when every listed resolution is empty (the
real loop would still be running). -/
def getLiveRoomsWithRetry (retryInterval : Nat) :
    List (List MCHADLiveRoom) → Option (List MCHADLiveRoom × List Nat)
  | [] => none
  | live :: rest =>
    if live.length ≠ 0 then some (live, [])
    else (getLiveRoomsWithRetry retryInterval rest).map
      (fun p => (p.1, retryInterval * 1000 :: p.2))

/-! ## `sources.js`: filter/classifier (claims C1, C10) -/

/-- The parse result of `parseTranslation` from `filter.js`: the detected
language tag and the residual translated text (`parsed.msg`); JS `undefined`
is `Option`'s `none` at the use sites. -/
structure ParsedTrans where
  lang : String
  msg : String
deriving DecidableEq, Repr

/-- The external collaborators of `attachFilters`: the text/author allow and
deny predicates, the translation parser and recognizer and the rich-content
rewriter from `filter.js` (file not provided — kept as parameters so every
theorem quantifies over them), and the two display toggles from `store.js`
read at evaluation time. -/
structure FilterPrims where
  textWhitelisted : String → Bool
  textBlacklisted : String → Bool
  authorWhitelisted : String → Bool
  authorBlacklisted : String → Bool
  parseTranslation : String → Option ParsedTrans
  isTranslation : Option ParsedTrans → Bool
  replaceFirstTranslation : Message → Message
  showModMessage : Bool
  showVerifiedMessage : Bool

/-- Embeds `isWhitelisted` (`sources.js` line 41):
`msg => textWhitelisted(msg.text) || authorWhitelisted(msg.author)`. -/
def isWhitelisted (p : FilterPrims) (msg : Message) : Bool :=
  p.textWhitelisted msg.text || p.authorWhitelisted msg.author

/-- Embeds `isBlacklisted` (`sources.js` line 44):
`msg => textBlacklisted(msg.text) || authorBlacklisted(msg.author)`. -/
def isBlacklisted (p : FilterPrims) (msg : Message) : Bool :=
  p.textBlacklisted msg.text || p.authorBlacklisted msg.author

/-- Embeds `isMod` (`sources.js` line 47):
`(msg.types & AuthorType.moderator) || (msg.types & AuthorType.owner)`
(number truthiness: non-zero). -/
def isMod (msg : Message) : Bool :=
  msg.types &&& AuthorType.moderator ≠ 0 || msg.types &&& AuthorType.owner ≠ 0

/-- Embeds `showIfMod` (`sources.js` line 50). -/
def showIfMod (p : FilterPrims) (msg : Message) : Bool :=
  isMod msg && p.showModMessage

/-- Embeds `showIfVerified` (`sources.js` line 53). -/
def showIfVerified (p : FilterPrims) (msg : Message) : Bool :=
  (msg.types &&& AuthorType.verified ≠ 0) && p.showVerifiedMessage

/-- Embeds `setStoreMessage` (`sources.js` lines 56-57): the value written by
`store => (msg, text) => store.set({ ...msg, text: text ?? msg.text })`. -/
def setStoreMessage (msg : Message) (text : Option String) : Message :=
  { msg with text := text.getD msg.text }

/-- The latest values of the three output stores `attachFilters` writes
(single-slot containers; `none` = the initial `null`). -/
structure YTCState where
  chatTranslations : Option Message
  mod : Option Message
  verified : Option Message
deriving DecidableEq, Repr

/-- The body of the `chat.subscribe` callback of `attachFilters`
(`sources.js` lines 65-79), acting on the three output slots:
blacklist first, then translation marker, then whitelist, then the
moderator and verified gates; non-matches write nothing. -/
def attachFiltersStep (p : FilterPrims) (st : YTCState) (message : Option Message) :
    YTCState :=
  match message with
  | none => st
  | some msg =>
    if isBlacklisted p msg then st
    else
      let text := jsTrim msg.text
      let parsed := p.parseTranslation text
      if text ≠ "" ∧ p.isTranslation parsed then
        let written := setStoreMessage (p.replaceFirstTranslation msg) (parsed.map (fun pt => pt.msg))
        { st with chatTranslations := some written }
      else if text ≠ "" ∧ isWhitelisted p msg then
        { st with chatTranslations := some (setStoreMessage msg none) }
      else if showIfMod p msg then
        { st with mod := some (setStoreMessage msg none) }
      else if showIfVerified p msg then
        { st with verified := some (setStoreMessage msg none) }
      else st

/-- Modelled from the spec: `parseTranslation` from `filter.js` (file not
provided) — recognizes the translation marker, "a leading language-tag
bracket", and "extraction yields the residual translated text"
(scenario: `"[en] hi"` parses to tag `en`, residual `"hi"`). -/
def parseTranslationModel (text : String) : Option ParsedTrans :=
  match text.toList with
  | '[' :: rest =>
    let lang := rest.takeWhile (fun c => c ≠ ']')
    let after := rest.dropWhile (fun c => c ≠ ']')
    match after with
    | ']' :: tail => some ⟨String.mk lang, jsTrim (String.mk tail)⟩
    | _ => none
  | _ => none

/-- Modelled from the spec: `isTranslation` from `filter.js` (file not
provided) — "true if text matches a recognized translation marker pattern";
a missing parse (JS `undefined`) is never a translation, a parse with an
empty tag is not recognized. -/
def isTranslationModel (parsed : Option ParsedTrans) : Bool :=
  match parsed with
  | none => false
  | some pt => pt.lang ≠ ""

/-- Modelled from the spec: `replaceFirstTranslation` from `filter.js` (file
not provided) — the pipeline "including rewriting translated text" rewrites
the first rich-content span of the message to carry the residual translated
text instead of the raw marker text. -/
def replaceFirstTranslationModel (msg : Message) : Message :=
  { msg with messageArray :=
      match msg.messageArray with
      | [] => []
      | s :: rest =>
        { s with text := ((parseTranslationModel s.text).map (fun pt => pt.msg)).getD s.text } :: rest }

/-- A concrete `FilterPrims` instantiation with every allow/deny predicate
answering `true` (used to exercise precedence between overlapping rules). -/
def permissivePrims : FilterPrims :=
  ⟨fun _ => true, fun _ => true, fun _ => true, fun _ => true,
    parseTranslationModel, isTranslationModel, replaceFirstTranslationModel, true, true⟩

/-- A concrete `FilterPrims` instantiation with empty allow/deny lists and
both toggles on. -/
def modelPrims : FilterPrims :=
  ⟨fun _ => false, fun _ => false, fun _ => false, fun _ => false,
    parseTranslationModel, isTranslationModel, replaceFirstTranslationModel, true, true⟩

/-! ## `sources.js`: aggregator teardown (claim C7) -/

/-- The subscription state of the relay aggregation
`combineStores(MCHAD.getArchive(link), MCHAD.getLiveTranslations(link))`
(`sources.js` lines 33 and 87-96), together with the log of values set on the
combined store.  `archNested`/`liveNested` are the per-room subscriptions the
two readables hold (`mchad.js` lines 107-113 and 177-182);
`combArchSub`/`combLiveSub` are the two subscriptions `combineStores`
holds on the readables.  The store primitive is modelled from the spec: a
minimal publish/subscribe container — a pushed value reaches a callback only
while the corresponding subscription is active, and a readable's stop
function runs when its last subscriber unsubscribes. -/
structure AggState where
  enableMchadTLs : Bool
  mchadUsers : String → Option Bool
  archNested : List Bool
  liveNested : List Bool
  combArchSub : Bool
  combLiveSub : Bool
  combinedLog : List Message

/-- An event pushed by an underlying room source: script replay stream `i`
of `getArchive` emits `tl`, or room store `i` of `getLiveTranslations` emits
`msg`. -/
inductive RelayEvent where
  | archivePush (i : Nat) (tl : Option Message)
  | livePush (i : Nat) (msg : Option Message)

/-- Propagation of one underlying push: if the nested subscription is still
active, the callback of `mchad.js` line 110 (resp. 178) runs and may `set`
the readable's value, which reaches the combined store through
`combineStores`'s subscription (`sources.js` line 89) when that one is still
active. -/
def applyRelayEvent (s : AggState) : RelayEvent → AggState
  | .archivePush i tl =>
    if s.archNested.getD i false then
      match getArchiveSubscribeCb s.enableMchadTLs s.mchadUsers none tl with
      | some m => if s.combArchSub then { s with combinedLog := m :: s.combinedLog } else s
      | none => s
    else s
  | .livePush i msg =>
    if s.liveNested.getD i false then
      match getLiveSubscribeCb s.enableMchadTLs s.mchadUsers none msg with
      | some m => if s.combLiveSub then { s with combinedLog := m :: s.combinedLog } else s
      | none => s
    else s

/-- A sequence of underlying pushes. -/
def applyRelayEvents (s : AggState) (evs : List RelayEvent) : AggState :=
  evs.foldl applyRelayEvent s

/-- Embeds `cleanUp` of `combineStores` (`sources.js` lines 92-94): unsubscribe the
two subscriptions on the readables; each readable thereby loses its last
subscriber, so its teardown (`mchad.js` line 113, resp. 182) runs and
unsubscribes every nested room subscription. -/
def combineStoresCleanUp (s : AggState) : AggState :=
  { s with
    combArchSub := false
    combLiveSub := false
    archNested := s.archNested.map (fun _ => false)
    liveNested := s.liveNested.map (fun _ => false) }

/-! ## `sources.js`: YTC registration handshake (claim C9) -/

/-- The handshake state of `ytcSource` (`sources.js` lines 147-162 and
195-205): the `tryRegister` counter, the `portRegistered` flag, the number of
`registerClient` posts made on the port, the delays of the `setTimeout`
retries scheduled so far, and the number of `console.error` reports. -/
structure YtcRegState where
  tryRegister : Nat
  portRegistered : Bool
  postedRegistrations : Nat
  retryDelays : List Nat
  errorLogs : Nat
deriving DecidableEq, Repr

/-- Embeds `registerClient` (`sources.js` lines 151-162) with `frameInfo` present:
post the registration and increment `tryRegister`. -/
def registerClient (s : YtcRegState) : YtcRegState :=
  { s with
    postedRegistrations := s.postedRegistrations + 1
    tryRegister := s.tryRegister + 1 }

/-- The `registerClientResponse` case of the port listener (`sources.js`
lines 195-205).  On failure with `tryRegister < 3` a retry is scheduled with
`setTimeout(registerClient, 500)`; the code never cancels the timer and no
other response can arrive before it fires, so the firing is folded into the
same step.  Otherwise the failure is written to `console.error` (counted,
never thrown). -/
def onRegisterClientResponse (success : Bool) (s : YtcRegState) : YtcRegState :=
  if success then { s with portRegistered := true }
  else if s.tryRegister < 3 then
    registerClient { s with retryDelays := s.retryDelays ++ [500] }
  else
    { s with errorLogs := s.errorLogs + 1 }

/-- The state after the initial `registerClient` call (`sources.js` lines
165-171: the popout path calls it right away; the frame-info path calls it on
the first `frameInfo` message). -/
def ytcInitialState : YtcRegState :=
  registerClient ⟨0, false, 0, [], 0⟩

/-- Process a sequence of `registerClientResponse` results. -/
def runRegisterResponses (responses : List Bool) (s : YtcRegState) : YtcRegState :=
  responses.foldl (fun st b => onRegisterClientResponse b st) s

/-! ## Order lemmas for the recomputed sort key -/

theorem Q60.le_iff (x y : Q60) : x.le y ↔ x.val ≤ y.val := by
  unfold Q60.le Q60.val
  rw [div_le_div_iff₀ (by positivity) (by positivity)]
  constructor <;> intro h <;> exact_mod_cast h

instance : IsTotal ArchiveTL unixLe :=
  ⟨fun a b => by
    unfold unixLe
    rw [Q60.le_iff, Q60.le_iff]
    exact le_total _ _⟩

instance : IsTrans ArchiveTL unixLe :=
  ⟨fun a b c h1 h2 => by
    unfold unixLe at h1 h2 ⊢
    rw [Q60.le_iff] at h1 h2 ⊢
    exact le_trans h1 h2⟩

/-! ## Claim C4: language-tag resolution returns the last match -/

/-- C4: for every room tag string, `getRoomTagLanguageCode` splits it on
whitespace, maps each token through the external language-match function, and
returns the code of the last match found across all tokens; when no token
produces any match it returns `null`. -/
theorem getRoomTagLanguageCode_last_match (isLangMatch : String → LangInfo → Bool)
    (languagesInfo : List LangInfo) (tag : String) :
    getRoomTagLanguageCode isLangMatch languagesInfo tag
        = lastMatchCodeSpec isLangMatch languagesInfo tag ∧
      (getRoomTagLanguageCode isLangMatch languagesInfo tag = none ↔
        ∀ tok ∈ jsSplitWs tag, ∀ lang ∈ languagesInfo, isLangMatch tok lang = false) := by
  constructor
  · unfold getRoomTagLanguageCode lastMatchCodeSpec allTagMatches possibleLanguages
    rw [List.head?_reverse]
  · unfold getRoomTagLanguageCode possibleLanguages
    rw [Option.map_eq_none', List.getLast?_eq_none_iff, List.flatten_eq_nil_iff]
    simp [List.filter_eq_nil_iff]

/-- C4 witness: the resolver picks the later of two matching tokens and
returns `null` on a tag with no matching token. -/
theorem getRoomTagLanguageCode_last_match_witness :
    getRoomTagLanguageCode (fun t l => t = l.code)
        [⟨"en", "English"⟩, ⟨"es", "Spanish"⟩] "en es"
      = lastMatchCodeSpec (fun t l => t = l.code)
        [⟨"en", "English"⟩, ⟨"es", "Spanish"⟩] "en es" := by
  exact (getRoomTagLanguageCode_last_match (fun t l => t = l.code)
    [⟨"en", "English"⟩, ⟨"es", "Spanish"⟩] "en es").1

/-! ## Claim C6: live-room retry loop -/

/-- C6: `getLiveRoomsWithRetry` returns the live-room list of the first
resolution that is non-empty, after exactly one sleep of
`retryInterval * 1000` ms per preceding empty resolution (the `getRooms`
results are listed in call order). -/
theorem getLiveRoomsWithRetry_first_nonempty (interval : Nat)
    (ress : List (List MCHADLiveRoom)) (i : Nat) (l : List MCHADLiveRoom)
    (hbefore : ∀ j, j < i → ress[j]? = some [])
    (hi : ress[i]? = some l) (hne : l ≠ []) :
    getLiveRoomsWithRetry interval ress = some (l, List.replicate i (interval * 1000)) := by
  induction i generalizing ress with
  | zero =>
    match ress with
    | [] => simp at hi
    | r0 :: rest =>
      have hr0 : r0 = l := by simpa using hi
      subst hr0
      have hlen : r0.length ≠ 0 := by
        simpa [List.length_eq_zero] using hne
      simp [getLiveRoomsWithRetry, hlen]
  | succ n ih =>
    match ress with
    | [] => simp at hi
    | r0 :: rest =>
      have h0 : r0 = [] := by
        have := hbefore 0 (Nat.succ_pos n)
        simpa using this
      subst h0
      have hrec := ih rest
        (fun j hj => by
          have := hbefore (j + 1) (Nat.succ_lt_succ hj)
          simpa using this)
        (by simpa using hi)
      simp [getLiveRoomsWithRetry, hrec, List.replicate_succ]

/-- C6 witness: with retry interval 30 s, two empty resolutions followed by a
non-empty one produce exactly two 30000 ms sleeps before the rooms of the
third resolution are returned. -/
theorem getLiveRoomsWithRetry_first_nonempty_witness :
    getLiveRoomsWithRetry 30 [[], [], [⟨"nick", "tags"⟩]]
        = some ([⟨"nick", "tags"⟩], [30000, 30000]) ∧
      ([30000, 30000] : List Nat).length = 2 := by
  constructor
  · have h := getLiveRoomsWithRetry_first_nonempty 30 [[], [], [⟨"nick", "tags"⟩]] 2
      [⟨"nick", "tags"⟩]
      (by decide) (by decide) (by decide)
    simpa using h
  · decide

/-! ## Claim C1: blacklist takes precedence over every route -/

/-- C1: for every primary-chat message, if the message is blacklisted (its
text matches a deny pattern or its author is on a deny list), the classifier
in `attachFilters` routes it to no output stream at all — the three output
slots are left untouched — whatever the translation-marker and whitelist
tests would say. -/
theorem attachFilters_blacklisted_dropped (p : FilterPrims) (st : YTCState)
    (msg : Message) (h : isBlacklisted p msg = true) :
    attachFiltersStep p st (some msg) = st := by
  unfold attachFiltersStep
  simp [h]

/-- C1 witness: a message that is simultaneously blacklisted, whitelisted and
carrying a translation marker is dropped. -/
theorem attachFilters_blacklisted_dropped_witness :
    isBlacklisted permissivePrims ⟨"[en] hi", [⟨"text", "[en] hi"⟩], "A", "A", none, 1, "t", 0, 0⟩ = true ∧
    isWhitelisted permissivePrims ⟨"[en] hi", [⟨"text", "[en] hi"⟩], "A", "A", none, 1, "t", 0, 0⟩ = true ∧
    permissivePrims.isTranslation (permissivePrims.parseTranslation
      (jsTrim (Message.text ⟨"[en] hi", [⟨"text", "[en] hi"⟩], "A", "A", none, 1, "t", 0, 0⟩))) = true ∧
    attachFiltersStep permissivePrims ⟨none, none, none⟩
      (some ⟨"[en] hi", [⟨"text", "[en] hi"⟩], "A", "A", none, 1, "t", 0, 0⟩) = ⟨none, none, none⟩ := by
  refine ⟨by decide, by decide, by decide, ?_⟩
  exact attachFilters_blacklisted_dropped permissivePrims ⟨none, none, none⟩
    ⟨"[en] hi", [⟨"text", "[en] hi"⟩], "A", "A", none, 1, "t", 0, 0⟩ (by decide)

/-! ## Claim C2: relay suppression keys on the stored flag, not on presence -/

/-- C2 counterexample: an author present in the Suppression Registry with the
stored boolean `false` is forwarded by both relay subscribe callbacks — the
claim that presence alone (whatever boolean value is stored) suppresses the
message is false on the code. -/
theorem relay_present_author_forwarded_cex :
    (fun a => if a = "A" then some false else (none : Option Bool)) "A" = some false ∧
    getArchiveSubscribeCb true (fun a => if a = "A" then some false else none) none
        (some ⟨"hi", [], "A", "A", none, 1, "t", 8, 0⟩)
      = some ⟨"hi", [], "A", "A", none, 1, "t", 8, 0⟩ ∧
    getLiveSubscribeCb true (fun a => if a = "A" then some false else none) none
        (some ⟨"hi", [], "A", "A", none, 1, "t", 8, 0⟩)
      = some ⟨"hi", [], "A", "A", none, 1, "t", 8, 0⟩ ∧
    some (⟨"hi", [], "A", "A", none, 1, "t", 8, 0⟩ : Message) ≠ (none : Option Message) := by
  refine ⟨by decide, by decide, by decide, by decide⟩

/-- C2 (amended): a relay message whose author is stored in the Suppression
Registry with flag `true` is never forwarded to the relay-combined stream —
the subscribe callbacks of `getArchive` and `getLiveTranslations` leave the
store untouched; an author merely present with flag `false` does not
suppress. -/
theorem relay_suppressed_author_not_forwarded (enable : Bool)
    (users : String → Option Bool) (store : Option Message) (m : Message)
    (h : users m.author = some true) :
    getArchiveSubscribeCb enable users store (some m) = store ∧
    getLiveSubscribeCb enable users store (some m) = store := by
  unfold getArchiveSubscribeCb getLiveSubscribeCb
  simp [h]

/-- C2 witness: a message from an author stored with flag `true` leaves the
combined store unchanged in both callbacks. -/
theorem relay_suppressed_author_not_forwarded_witness :
    (fun a => if a = "A" then some true else (none : Option Bool)) "A" = some true ∧
    getArchiveSubscribeCb true (fun a => if a = "A" then some true else none) none
        (some ⟨"hi", [], "A", "A", none, 1, "t", 8, 0⟩) = none ∧
    getLiveSubscribeCb true (fun a => if a = "A" then some true else none) none
        (some ⟨"hi", [], "A", "A", none, 1, "t", 8, 0⟩) = none := by
  have h := relay_suppressed_author_not_forwarded true
    (fun a => if a = "A" then some true else none) none
    ⟨"hi", [], "A", "A", none, 1, "t", 8, 0⟩ (by decide)
  exact ⟨by decide, h.1, h.2⟩

/-! ## Claim C8: relay message ids are fresh and strictly increasing -/

/-- C8: across every sequence of relay message constructions through
`mchadToMessage` (archive and live alike), the `messageId`s drawn from the
single process-wide counter are exactly `c0+1, …, c0+n`: strictly increasing
in creation order and pairwise distinct. -/
theorem mchadToMessage_ids_fresh (reqs : List BuildReq) (c0 : Nat) :
    ((buildAll reqs c0).1.map (fun m => m.messageId)) = List.range' (c0 + 1) reqs.length ∧
    ((buildAll reqs c0).1.map (fun m => m.messageId)).Pairwise (· < ·) ∧
    ((buildAll reqs c0).1.map (fun m => m.messageId)).Nodup ∧
    (buildAll reqs c0).2 = c0 + reqs.length := by
  have key : ∀ (rs : List BuildReq) (c : Nat),
      ((buildAll rs c).1.map (fun m => m.messageId)) = List.range' (c + 1) rs.length ∧
      (buildAll rs c).2 = c + rs.length := by
    intro rs
    induction rs with
    | nil => intro c; simp [buildAll]
    | cons r rs ih =>
      intro c
      have hrec := ih (c + 1)
      simp only [buildAll, mchadToMessage, List.map_cons, List.length_cons]
      refine ⟨?_, ?_⟩
      · rw [hrec.1, List.range'_succ (c + 1) rs.length 1]
      · rw [hrec.2]
        omega
  have h1 := (key reqs c0).1
  have hpw : ((buildAll reqs c0).1.map (fun m => m.messageId)).Pairwise (· < ·) := by
    rw [h1]; exact List.pairwise_lt_range' _ _
  exact ⟨h1, hpw, hpw.imp ne_of_lt, (key reqs c0).2⟩

/-- C8 witness: two consecutive constructions from counter 0 get ids 1, 2. -/
theorem mchadToMessage_ids_fresh_witness :
    ((buildAll [⟨"A", fun _ => "", id, none, ⟨"a", 1⟩⟩,
        ⟨"B", fun _ => "", id, none, ⟨"b", 2⟩⟩] 0).1.map (fun m => m.messageId))
      = List.range' 1 2 :=
  (mchadToMessage_ids_fresh [⟨"A", fun _ => "", id, none, ⟨"a", 1⟩⟩,
      ⟨"B", fun _ => "", id, none, ⟨"b", 2⟩⟩] 0).1

/-! ## Claim C9: YTC handshake retry counts -/

/-- C9 counterexample: three consecutive failing `registerClientResponse`s
produce the `console.error` report after only two scheduled 500 ms retries,
not three — the initial attempt plus two retries exhaust `tryRegister < 3`. -/
theorem ytc_three_retries_cex :
    (runRegisterResponses [false, false, false] ytcInitialState).retryDelays.length = 2 ∧
    (runRegisterResponses [false, false, false] ytcInitialState).retryDelays.length ≠ 3 ∧
    (runRegisterResponses [false, false, false] ytcInitialState).errorLogs = 1 := by
  refine ⟨by decide, by decide, by decide⟩

/-- Closed form of the handshake state after `n` failing responses. -/
theorem runRegisterResponses_replicate_false (n : Nat) :
    runRegisterResponses (List.replicate n false) ytcInitialState =
      ⟨min (n + 1) 3, false, min (n + 1) 3, List.replicate (min n 2) 500, n - 2⟩ := by
  induction n with
  | zero => decide
  | succ k ih =>
    have hstep : runRegisterResponses (List.replicate (k + 1) false) ytcInitialState
        = onRegisterClientResponse false
            (runRegisterResponses (List.replicate k false) ytcInitialState) := by
      unfold runRegisterResponses
      rw [List.replicate_succ' k false, List.foldl_append]
      rfl
    rw [hstep, ih]
    rcases k with _ | _ | k2
    · decide
    · decide
    · have h1 : min (k2 + 2 + 1) 3 = 3 := by omega
      have h2 : min (k2 + 2) 2 = 2 := by omega
      have h3 : min (k2 + 2 + 1 + 1) 3 = 3 := by omega
      have h4 : min (k2 + 2 + 1) 2 = 2 := by omega
      rw [h1, h2, h3, h4]
      simp [onRegisterClientResponse]

/-- C9 (amended): when `registerClientResponse` reports failure, the
handshake is retried with a fixed 500 ms backoff while `tryRegister < 3` —
at most two retries after the initial attempt, three registration posts in
total — after which the failure is reported by incrementing the
`console.error` log (never thrown) and no further registration attempt is
ever posted, however many failures follow. -/
theorem ytc_handshake_retry_bound (n : Nat) :
    (runRegisterResponses (List.replicate n false) ytcInitialState).postedRegistrations
        = min (n + 1) 3 ∧
    (runRegisterResponses (List.replicate n false) ytcInitialState).retryDelays
        = List.replicate (min n 2) 500 ∧
    (runRegisterResponses (List.replicate n false) ytcInitialState).errorLogs = n - 2 ∧
    (runRegisterResponses (List.replicate n false) ytcInitialState).portRegistered = false := by
  rw [runRegisterResponses_replicate_false n]
  exact ⟨rfl, rfl, rfl, rfl⟩

/-! ## Claim C3: prepared archive scripts are the non-negative entries in
non-decreasing recomputed order -/

/-- C3: for every archive script, the sequence prepared by `getArchive`
contains exactly (up to the sort's reordering) those entries whose recomputed
offset `archiveTimeToInt` of the elapsed-time string is non-negative, and the
entries appear in non-decreasing order of the value of that recomputed
offset; every prepared entry carries its own recomputed offset as sort key. -/
theorem getArchive_script_filter_sorted (script : List Message) :
    ((getScript script).map (fun e => e.msg)).Perm
        (script.filter (fun m => jsGe0 (archiveTimeToInt m.timestamp))) ∧
    (getScript script).Pairwise
        (fun a b => (a.unix.getD ⟨0, 0⟩).val ≤ (b.unix.getD ⟨0, 0⟩).val) ∧
    ∀ e ∈ getScript script,
      e.unix = archiveTimeToInt e.msg.timestamp ∧ jsGe0 e.unix = true := by
  have hperm := List.perm_insertionSort unixLe
    ((script.map addUnix).filter (fun e => jsGe0 e.unix))
  refine ⟨?_, ?_, ?_⟩
  · have h1 : ((script.map addUnix).filter (fun e => jsGe0 e.unix)).map (fun e => e.msg)
        = script.filter (fun m => jsGe0 (archiveTimeToInt m.timestamp)) := by
      rw [List.filter_map, List.map_map]
      have h2 : ((fun e => ArchiveTL.msg e) ∘ addUnix) = id := by
        funext m; rfl
      rw [h2, List.map_id]
      rfl
    exact h1 ▸ (hperm.map (fun e => e.msg))
  · exact (List.sorted_insertionSort unixLe _).imp (fun h => (Q60.le_iff _ _).mp h)
  · intro e he
    have heL : e ∈ (script.map addUnix).filter (fun e => jsGe0 e.unix) :=
      hperm.mem_iff.mp he
    have hp := List.of_mem_filter heL
    obtain ⟨m, _hmm, hme⟩ := List.mem_map.mp (List.mem_of_mem_filter heL)
    exact ⟨hme ▸ rfl, hp⟩

/-- C3 witness: a script with offsets 5 s, 3 s and a negative entry is
prepared as the two non-negative entries in ascending order. -/
theorem getArchive_script_filter_sorted_witness :
    ((getScript [⟨"a", [], "A", "A", none, 1, "00:00:05", 8, 5⟩,
        ⟨"b", [], "A", "A", none, 2, "00:00:03", 8, 3⟩,
        ⟨"c", [], "A", "A", none, 3, "-1:00:03", 8, 3⟩]).map (fun e => e.msg)).Perm
      ([⟨"a", [], "A", "A", none, 1, "00:00:05", 8, 5⟩,
        ⟨"b", [], "A", "A", none, 2, "00:00:03", 8, 3⟩,
        ⟨"c", [], "A", "A", none, 3, "-1:00:03", 8, 3⟩].filter
          (fun m => jsGe0 (archiveTimeToInt m.timestamp))) ∧
    ((⟨⟨"b", [], "A", "A", none, 2, "00:00:03", 8, 3⟩, archiveTimeToInt "00:00:03"⟩ : ArchiveTL)
        ∈ getScript [⟨"a", [], "A", "A", none, 1, "00:00:05", 8, 5⟩,
            ⟨"b", [], "A", "A", none, 2, "00:00:03", 8, 3⟩,
            ⟨"c", [], "A", "A", none, 3, "-1:00:03", 8, 3⟩] →
      jsGe0 (Option.some (⟨3, 0⟩ : Q60)) = true) := by
  constructor
  · exact (getArchive_script_filter_sorted
      [⟨"a", [], "A", "A", none, 1, "00:00:05", 8, 5⟩,
        ⟨"b", [], "A", "A", none, 2, "00:00:03", 8, 3⟩,
        ⟨"c", [], "A", "A", none, 3, "-1:00:03", 8, 3⟩]).1
  · intro hmem
    have h := ((getArchive_script_filter_sorted
      [⟨"a", [], "A", "A", none, 1, "00:00:05", 8, 5⟩,
        ⟨"b", [], "A", "A", none, 2, "00:00:03", 8, 3⟩,
        ⟨"c", [], "A", "A", none, 3, "-1:00:03", 8, 3⟩]).2.2 _ hmem).2
    revert h
    decide

/-! ## Claim C5: first-time detection and the archive offset scenario -/

/-- C5 counterexample: for the script
`[{Stext:"--Stream Start--", Stime:1000}, {Stext:"hello", Stime:1005}]` the
second prepared message has `timestampMs = 5` (the code subtracts the raw
`Stime`s), not `5000` as the claim's scenario asserts. -/
theorem archive_offset_scenario_cex :
    ((getArchiveFromRoom (fun _ _ => false) [] ⟨"Author", "link", ""⟩
        [⟨"--Stream Start--", 1000⟩, ⟨"hello", 1005⟩] 0).1.map (fun m => m.timestampMs))
      = [0, 5] ∧
    ((getArchiveFromRoom (fun _ _ => false) [] ⟨"Author", "link", ""⟩
        [⟨"--Stream Start--", 1000⟩, ⟨"hello", 1005⟩] 0).1.map (fun m => m.timestampMs))
      ≠ [0, 5000] := by
  refine ⟨by decide, by decide⟩

/-- C5 (amended): `getFirstTime` returns the `Stime` of the first entry whose
`Stext` matches the case-insensitive stream-start marker, else the `Stime` of
the first entry, else `0`; in the scenario script the marker entry gives
`firstTime = 1000` and the second entry's normalized offset is `5` ms,
displayed as `"00:00:00"` by the `HH:MM:SS` formatter (not `5000` ms /
`"00:00:05"`). -/
theorem getFirstTime_and_scenario :
    (∀ (script : List MCHADTL) (e : MCHADTL),
        script.find? (fun s => isStreamStartMarker s.Stext) = some e →
        getFirstTime script = e.Stime) ∧
    (∀ script : List MCHADTL,
        script.find? (fun s => isStreamStartMarker s.Stext) = none →
        getFirstTime script = ((script.head?).map (fun s => s.Stime)).getD 0) ∧
    getFirstTime [] = 0 ∧
    getFirstTime [⟨"--Stream Start--", 1000⟩, ⟨"hello", 1005⟩] = 1000 ∧
    ((getArchiveFromRoom (fun _ _ => false) [] ⟨"Author", "link", ""⟩
        [⟨"--Stream Start--", 1000⟩, ⟨"hello", 1005⟩] 0).1.map
          (fun m => (m.timestampMs, m.timestamp)))
      = [(0, "00:00:00"), (5, "00:00:00")] := by
  refine ⟨?_, ?_, by decide, by decide, by decide⟩
  · intro script e h
    simp [getFirstTime, h, Option.orElse]
  · intro script h
    simp [getFirstTime, h, Option.orElse]

/-- C5 witness: the scenario script's marker entry is found and `firstTime`
is its `Stime`, 1000. -/
theorem getFirstTime_and_scenario_witness :
    ([⟨"--Stream Start--", 1000⟩, ⟨"hello", 1005⟩] : List MCHADTL).find?
        (fun s => isStreamStartMarker s.Stext) = some ⟨"--Stream Start--", 1000⟩ ∧
    getFirstTime [⟨"--Stream Start--", 1000⟩, ⟨"hello", 1005⟩] = 1000 := by
  refine ⟨by decide, ?_⟩
  exact getFirstTime_and_scenario.1 [⟨"--Stream Start--", 1000⟩, ⟨"hello", 1005⟩]
    ⟨"--Stream Start--", 1000⟩ (by decide)

/-! ## Claim C7: aggregator teardown silences the combined relay stream -/

/-- C7: after the relay aggregator's teardown (`combineStores`'s `cleanUp`,
which unsubscribes the combined store's two input subscriptions and thereby
stops both readables, unsubscribing every nested room subscription), no
further underlying push ever changes the combined stream's log, and every
nested room subscription stays unsubscribed. -/
theorem combineStores_teardown_silent (s : AggState) (evs : List RelayEvent) :
    applyRelayEvents (combineStoresCleanUp s) evs = combineStoresCleanUp s ∧
    (applyRelayEvents (combineStoresCleanUp s) evs).combinedLog = s.combinedLog ∧
    (∀ b ∈ (applyRelayEvents (combineStoresCleanUp s) evs).archNested, b = false) ∧
    (∀ b ∈ (applyRelayEvents (combineStoresCleanUp s) evs).liveNested, b = false) := by
  have hoff : ∀ (l : List Bool) (i : Nat), (l.map (fun _ => false)).getD i false = false := by
    intro l i
    rw [List.getD_eq_getElem?_getD, List.getElem?_map]
    cases l[i]? <;> rfl
  have hfix : ∀ e, applyRelayEvent (combineStoresCleanUp s) e = combineStoresCleanUp s := by
    intro e
    cases e with
    | archivePush i tl =>
      have h := hoff s.archNested i
      simp only [applyRelayEvent, combineStoresCleanUp] at h ⊢
      rw [h]
      simp
    | livePush i msg =>
      have h := hoff s.liveNested i
      simp only [applyRelayEvent, combineStoresCleanUp] at h ⊢
      rw [h]
      simp
  have hall : applyRelayEvents (combineStoresCleanUp s) evs = combineStoresCleanUp s := by
    induction evs with
    | nil => rfl
    | cons e es ih =>
      calc applyRelayEvents (combineStoresCleanUp s) (e :: es)
          = applyRelayEvents (applyRelayEvent (combineStoresCleanUp s) e) es := rfl
        _ = applyRelayEvents (combineStoresCleanUp s) es := by rw [hfix e]
        _ = combineStoresCleanUp s := ih
  refine ⟨hall, by rw [hall]; rfl, ?_, ?_⟩
  · rw [hall]
    intro b hb
    simp only [combineStoresCleanUp] at hb
    obtain ⟨a, -, hfa⟩ := List.mem_map.mp hb
    exact hfa.symm
  · rw [hall]
    intro b hb
    simp only [combineStoresCleanUp] at hb
    obtain ⟨a, -, hfa⟩ := List.mem_map.mp hb
    exact hfa.symm

/-- C7 witness: a torn-down aggregator ignores a burst of pushes from both
nested sources — the combined log keeps only what was there before. -/
theorem combineStores_teardown_silent_witness :
    (applyRelayEvents
        (combineStoresCleanUp ⟨true, fun _ => none, [true], [true], true, true, []⟩)
        [.archivePush 0 (some ⟨"hi", [], "A", "A", none, 1, "t", 8, 0⟩),
          .livePush 0 (some ⟨"yo", [], "B", "B", none, 2, "t", 8, 0⟩)]).combinedLog
      = [] :=
  (combineStores_teardown_silent ⟨true, fun _ => none, [true], [true], true, true, []⟩
    [.archivePush 0 (some ⟨"hi", [], "A", "A", none, 1, "t", 8, 0⟩),
      .livePush 0 (some ⟨"yo", [], "B", "B", none, 2, "t", 8, 0⟩)]).2.1

/-! ## Claim C10: what the classifier writes to each stream -/

theorem setStoreMessage_none (msg : Message) : setStoreMessage msg none = msg := by
  cases msg
  rfl

/-- C10 counterexample: a message carrying the translation marker is written
to `chatTranslations` as a copy of `replaceFirstTranslation(message)` — whose
`messageArray` differs from the incoming message's — so not every field other
than `text` is unchanged. -/
theorem attachFilters_translation_rewrites_cex :
    (attachFiltersStep modelPrims ⟨none, none, none⟩
        (some ⟨"[en] hi", [⟨"text", "[en] hi"⟩], "A", "A", none, 1, "t", 0, 0⟩)).chatTranslations
      = some ⟨"hi", [⟨"text", "hi"⟩], "A", "A", none, 1, "t", 0, 0⟩ ∧
    (⟨"hi", [⟨"text", "hi"⟩], "A", "A", none, 1, "t", 0, 0⟩ : Message).messageArray
      ≠ (⟨"[en] hi", [⟨"text", "[en] hi"⟩], "A", "A", none, 1, "t", 0, 0⟩ : Message).messageArray := by
  refine ⟨by decide, by decide⟩

/-- C10 (amended): whenever `attachFilters` changes the `mod` or `verified`
slot it writes exactly the incoming message (every field unchanged), and
whenever it changes the `chatTranslations` slot it writes either the incoming
message unchanged (whitelist route) or a copy of
`replaceFirstTranslation(message)` — not of the incoming message itself —
with `text` set to the parsed residual translation when one is present
(translation-marker route). -/
theorem attachFilters_written_values (p : FilterPrims) (st : YTCState) (msg : Message) :
    ((attachFiltersStep p st (some msg)).mod ≠ st.mod →
      (attachFiltersStep p st (some msg)).mod = some msg) ∧
    ((attachFiltersStep p st (some msg)).verified ≠ st.verified →
      (attachFiltersStep p st (some msg)).verified = some msg) ∧
    ((attachFiltersStep p st (some msg)).chatTranslations ≠ st.chatTranslations →
      (attachFiltersStep p st (some msg)).chatTranslations = some msg ∨
      (attachFiltersStep p st (some msg)).chatTranslations
        = some (setStoreMessage (p.replaceFirstTranslation msg)
            ((p.parseTranslation (jsTrim msg.text)).map (fun pt => pt.msg)))) := by
  simp only [attachFiltersStep]
  split_ifs with h1 h2 h3 h4 h5 <;>
    simp [setStoreMessage_none]

/-- C10 witness: a moderator message routed to the `mod` stream is written
completely unchanged. -/
theorem attachFilters_written_values_witness :
    (attachFiltersStep modelPrims ⟨none, none, none⟩
        (some ⟨"", [], "A", "A", none, 1, "t", 1, 0⟩)).mod
      ≠ (⟨none, none, none⟩ : YTCState).mod ∧
    (attachFiltersStep modelPrims ⟨none, none, none⟩
        (some ⟨"", [], "A", "A", none, 1, "t", 1, 0⟩)).mod
      = some ⟨"", [], "A", "A", none, 1, "t", 1, 0⟩ := by
  refine ⟨by decide, ?_⟩
  exact (attachFilters_written_values modelPrims ⟨none, none, none⟩
    ⟨"", [], "A", "A", none, 1, "t", 1, 0⟩).1 (by decide)
